import Mathlib

/-!
Verification of the BoomBuddies client-side presentation engine
(`Game` scene orchestrator, `TileMap` tile layer, `constants.ts`).

Shallow embedding conventions:
* JS numbers that hold pixel positions, scales, intensities and fuse
  fractions become `ℚ`; grid coordinates and timestamps become `ℤ`.
* A JS `Map<string, T>` becomes an association list `AMap T` with the
  same observable semantics (`set` updates in place or appends, `delete`
  filters, iteration order is insertion order).
* `Math.sin(π·t)` is abstracted as a parameter `sinpi : ℚ → ℚ`, and
  `Math.sqrt` as a parameter `sq : ℚ → ℚ`; every theorem that touches
  them holds for an arbitrary such function.
* PixiJS scene-graph objects are represented by the numeric fields the
  game logic reads and writes (positions, scale); purely decorative
  drawing (colors, strokes) has no game-visible state and is omitted.
-/

/-- GAME_CONFIG.TILE_SIZE from constants.ts. -/
def TILE_SIZE : ℚ := 40

/-- GAME_CONFIG.GRID_WIDTH from constants.ts. -/
def GRID_WIDTH : ℤ := 19

/-- GAME_CONFIG.GRID_HEIGHT from constants.ts. -/
def GRID_HEIGHT : ℤ := 15

/-- GAME_CONFIG.BOMB_TIMER from constants.ts (ms until explosion). -/
def BOMB_TIMER : ℚ := 3000

/-- DIRECTION enum from constants.ts. -/
def DIR_UP : ℤ := 1

/-- DIRECTION.DOWN. -/
def DIR_DOWN : ℤ := 2

/-- DIRECTION.LEFT. -/
def DIR_LEFT : ℤ := 3

/-- DIRECTION.RIGHT. -/
def DIR_RIGHT : ℤ := 4

/-- GAME_PHASE.PLAYING from constants.ts. -/
def phasePlaying : String := "playing"

/-- GAME_PHASE.WAITING from constants.ts (the string is "lobby"). -/
def phaseWaiting : String := "lobby"

/-- Helper gridToPixel from constants.ts: cell center in pixels. -/
def gridToPixel (gridX gridY : ℤ) : ℚ × ℚ :=
  ((gridX : ℚ) * TILE_SIZE + TILE_SIZE / 2, (gridY : ℚ) * TILE_SIZE + TILE_SIZE / 2)

/-- Game.lerp: exponential-smoothing step. -/
def lerp (a b t : ℚ) : ℚ := a + (b - a) * t

/-- BombermanPlayer (types.ts), restricted to the fields the renderer reads. -/
structure PlayerData where
  socketId : String
  name : String
  gridX : ℤ
  gridY : ℤ
  alive : Bool
  color : ℤ
  stunnedUntil : ℤ
  deriving DecidableEq

/-- BombData (types.ts), restricted to the fields the renderer reads. -/
structure BombData where
  id : String
  ownerId : String
  gridX : ℤ
  gridY : ℤ
  timer : ℚ
  isMoving : Bool
  isFlying : Bool
  deriving DecidableEq

/-- ExplosionData (types.ts). -/
structure ExplosionData where
  id : String
  gridX : ℤ
  gridY : ℤ
  timer : ℚ
  deriving DecidableEq

/-- BombermanGameData (types.ts), restricted to the fields Game.updateFromLobby reads. -/
structure GameData where
  tiles : List ℤ
  bombs : List BombData
  explosions : List ExplosionData
  deriving DecidableEq

/-- BombermanLobby (types.ts), restricted to the fields Game.updateFromLobby reads. -/
structure Lobby where
  players : List PlayerData
  state : String
  mySocketId : Option String
  gameData : Option GameData
  deriving DecidableEq

/-- A JS Map with string keys, as an insertion-ordered association list. -/
abbrev AMap (α : Type) := List (String × α)

/-- Map.get: first binding of the key, if any. -/
def lookupA {α : Type} : AMap α → String → Option α
  | [], _ => none
  | (k, v) :: rest, key => if k = key then some v else lookupA rest key

/-- Map.set: replace the binding in place if the key exists, else append. -/
def setA {α : Type} : AMap α → String → α → AMap α
  | [], key, v => [(key, v)]
  | (k, w) :: rest, key, v =>
    if k = key then (k, v) :: rest else (k, w) :: setA rest key v

/-- The keys of the map, in order. -/
def keysA {α : Type} (m : AMap α) : List String := m.map Prod.fst

/-- PlayerSprite (Game.ts): container position, interpolation target,
latest authoritative data and animation state. -/
structure PlayerSprite where
  x : ℚ
  y : ℚ
  targetX : ℚ
  targetY : ℚ
  data : PlayerData
  deathTime : ℤ
  lastX : ℚ
  lastY : ℚ
  movePhase : ℤ
  deriving DecidableEq

/-- The wrap-bounce axis tag of a BombSprite ('x' | 'y'). -/
inductive Axis where
  | x : Axis
  | y : Axis
  deriving DecidableEq

/-- BombSprite (Game.ts): graphics position and scale, pulse state,
interpolation target, authoritative data and wrap-bounce machine state. -/
structure BombSprite where
  x : ℚ
  y : ℚ
  scaleX : ℚ
  scaleY : ℚ
  pulsePhase : ℚ
  targetX : ℚ
  targetY : ℚ
  data : BombData
  bounceTime : ℤ
  wrapBouncePhase : ℚ
  wrapBounceDir : Option Axis
  prevTargetX : ℚ
  prevTargetY : ℚ
  deriving DecidableEq

/-- ExplosionSprite (Game.ts): graphics position, creation time, grid cell. -/
structure ExplosionSprite where
  x : ℚ
  y : ℚ
  createdAt : ℤ
  gridX : ℤ
  gridY : ℤ
  deriving DecidableEq

/-- Game.addPlayer: create a sprite at the authoritative cell center. -/
def mkPlayerSprite (data : PlayerData) : PlayerSprite :=
  let pos := gridToPixel data.gridX data.gridY
  { x := pos.1, y := pos.2, targetX := pos.1, targetY := pos.2, data := data,
    deathTime := 0, lastX := pos.1, lastY := pos.2, movePhase := 0 }

/-- Game.updatePlayer: record a just-died timestamp once, track movement
for the squash/stretch easing, store data and retarget interpolation.
`globalTime` is the orchestrator's frame clock, `now` is Date.now(). -/
def updatePlayerS (globalTime now : ℤ) (sprite : PlayerSprite) (data : PlayerData) : PlayerSprite :=
  let wasDead := sprite.data.alive = false
  let justDied := data.alive = false ∧ ¬ wasDead
  let pos := gridToPixel data.gridX data.gridY
  let moved := pos.1 ≠ sprite.targetX ∨ pos.2 ≠ sprite.targetY
  { sprite with
    deathTime := if justDied then now else sprite.deathTime,
    lastX := if moved then sprite.targetX else sprite.lastX,
    lastY := if moved then sprite.targetY else sprite.lastY,
    movePhase := if moved then globalTime else sprite.movePhase,
    data := data,
    targetX := pos.1,
    targetY := pos.2 }

/-- One step of the add-or-update loop of Game.syncPlayers. -/
def playerStep (globalTime now : ℤ) (acc : AMap PlayerSprite) (p : PlayerData) : AMap PlayerSprite :=
  match lookupA acc p.socketId with
  | some s => setA acc p.socketId (updatePlayerS globalTime now s p)
  | none => setA acc p.socketId (mkPlayerSprite p)

/-- Game.syncPlayers: drop sprites whose id left the snapshot, then add
or update a sprite for every player in the snapshot list. -/
def syncPlayers (globalTime now : ℤ) (m : AMap PlayerSprite) (players : List PlayerData) : AMap PlayerSprite :=
  let currentIds := players.map PlayerData.socketId
  players.foldl (playerStep globalTime now) (m.filter (fun kv => currentIds.contains kv.1))

/-- Game.addBomb: create a bomb sprite at the authoritative cell center
with identity scale and an idle wrap-bounce machine. -/
def mkBombSprite (data : BombData) : BombSprite :=
  let pos := gridToPixel data.gridX data.gridY
  { x := pos.1, y := pos.2, scaleX := 1, scaleY := 1, pulsePhase := 0,
    targetX := pos.1, targetY := pos.2, data := data, bounceTime := 0,
    wrapBouncePhase := 0, wrapBounceDir := none,
    prevTargetX := pos.1, prevTargetY := pos.2 }

/-- Game.updateBomb: store data, refresh pulse urgency, detect a wrap
(target jumped by more than 5 tile widths while flying and the machine is
idle), then retarget interpolation remembering the previous target. -/
def updateBombS (sprite : BombSprite) (data : BombData) : BombSprite :=
  let s1 := { sprite with data := data, pulsePhase := 1 - data.timer / BOMB_TIMER }
  let pos := gridToPixel data.gridX data.gridY
  let s2 :=
    if data.isFlying = true ∧ s1.wrapBouncePhase = 0 then
      if TILE_SIZE * 5 < |s1.targetX - pos.1| then
        { s1 with wrapBouncePhase := 1/100, wrapBounceDir := some Axis.x }
      else if TILE_SIZE * 5 < |s1.targetY - pos.2| then
        { s1 with wrapBouncePhase := 1/100, wrapBounceDir := some Axis.y }
      else s1
    else s1
  { s2 with
    prevTargetX := s2.targetX, prevTargetY := s2.targetY,
    targetX := pos.1, targetY := pos.2 }

/-- One step of the add-or-update loop of Game.syncBombs. -/
def bombStep (acc : AMap BombSprite) (b : BombData) : AMap BombSprite :=
  match lookupA acc b.id with
  | some s => setA acc b.id (updateBombS s b)
  | none => setA acc b.id (mkBombSprite b)

/-- Game.syncBombs: drop sprites whose id left the snapshot, then add or
update a sprite for every bomb in the snapshot list. -/
def syncBombs (m : AMap BombSprite) (bombs : List BombData) : AMap BombSprite :=
  let currentIds := bombs.map BombData.id
  bombs.foldl bombStep (m.filter (fun kv => currentIds.contains kv.1))

/-- Game.triggerExplosionShake body after the distance has been taken:
raise the intensity to the distance-derived impulse, never add. -/
def triggerShakeAtDistance (cur distance : ℚ) : ℚ :=
  if distance < 6 then max cur ((1 - distance / 6) * 12) else cur

/-- The impulse intensity triggerShakeAtDistance raises to: the code's
(1 - distance/maxDistance) * 12 inside the cutoff, zero at or beyond
the maxDistance = 6 cutoff. -/
def cutoffIntensity (distance : ℚ) : ℚ :=
  if distance < 6 then (1 - distance / 6) * 12 else 0

/-- Game.triggerExplosionShake: no-op without a truthy local socket id or
a local player sprite; otherwise shake by proximity of the explosion to
the local player.  `sq` abstracts Math.sqrt. -/
def triggerExplosionShake (sq : ℚ → ℚ) (myId : Option String)
    (pSprites : AMap PlayerSprite) (cur : ℚ) (ex ey : ℤ) : ℚ :=
  match myId with
  | none => cur
  | some sid =>
    if sid = "" then cur
    else
      match lookupA pSprites sid with
      | none => cur
      | some sp =>
        let dx : ℚ := ((sp.data.gridX - ex : ℤ) : ℚ)
        let dy : ℚ := ((sp.data.gridY - ey : ℤ) : ℚ)
        triggerShakeAtDistance cur (sq (dx * dx + dy * dy))

/-- Game.addExplosion: create a sprite at the cell center, stamped with
the creation time (the shake trigger it performs is threaded separately). -/
def mkExplosionSprite (now : ℤ) (data : ExplosionData) : ExplosionSprite :=
  let pos := gridToPixel data.gridX data.gridY
  { x := pos.1, y := pos.2, createdAt := now, gridX := data.gridX, gridY := data.gridY }

/-- One step of the add-only loop of Game.syncExplosions; the second
component carries the shake intensity mutated by addExplosion's call to
triggerExplosionShake. -/
def explosionStep (sq : ℚ → ℚ) (now : ℤ) (myId : Option String)
    (pSprites : AMap PlayerSprite) (acc : AMap ExplosionSprite × ℚ)
    (e : ExplosionData) : AMap ExplosionSprite × ℚ :=
  match lookupA acc.1 e.id with
  | some _ => acc
  | none =>
    (setA acc.1 e.id (mkExplosionSprite now e),
     triggerExplosionShake sq myId pSprites acc.2 e.gridX e.gridY)

/-- Game.syncExplosions: drop sprites whose id left the snapshot, then
add (but never update) a sprite for every explosion in the snapshot list. -/
def syncExplosions (sq : ℚ → ℚ) (now : ℤ) (myId : Option String)
    (pSprites : AMap PlayerSprite) (m : AMap ExplosionSprite) (shake : ℚ)
    (explosions : List ExplosionData) : AMap ExplosionSprite × ℚ :=
  let currentIds := explosions.map ExplosionData.id
  explosions.foldl (explosionStep sq now myId pSprites)
    (m.filter (fun kv => currentIds.contains kv.1), shake)

/-- The mutable Game fields that updateFromLobby reads and writes
(HUD-text fields are presentation-only strings and are not modelled). -/
structure GameState where
  inited : Bool
  mySocketId : Option String
  currentLobby : Option Lobby
  tiles : List ℤ
  playerSprites : AMap PlayerSprite
  bombSprites : AMap BombSprite
  explosionSprites : AMap ExplosionSprite
  shakeIntensity : ℚ
  deriving DecidableEq

/-- Game.updateFromLobby: no-op unless initialized; otherwise store the
snapshot, push tiles when game data is present, reconcile players, then
bombs, then explosions (whose creations shake using the freshly synced
player sprites). -/
def updateFromLobby (sq : ℚ → ℚ) (globalTime now : ℤ) (st : GameState) (lobby : Lobby) : GameState :=
  if st.inited = false then st
  else
    let st1 := { st with currentLobby := some lobby, mySocketId := lobby.mySocketId }
    let st2 :=
      match lobby.gameData with
      | some gd => { st1 with tiles := gd.tiles }
      | none => st1
    let st3 := { st2 with
      playerSprites := syncPlayers globalTime now st2.playerSprites lobby.players }
    let st4 :=
      match lobby.gameData with
      | some gd => { st3 with bombSprites := syncBombs st3.bombSprites gd.bombs }
      | none => st3
    match lobby.gameData with
    | some gd =>
      let r := syncExplosions sq now st4.mySocketId st4.playerSprites
        st4.explosionSprites st4.shakeIntensity gd.explosions
      { st4 with explosionSprites := r.1, shakeIntensity := r.2 }
    | none => st4

/-- TileMap.updateTile: write one cell, guarded by a bounds check on the
flattened row-major index against the stored array length. -/
def updateTile (tiles : List ℤ) (gridX gridY tileType : ℤ) : List ℤ :=
  let index := gridY * GRID_WIDTH + gridX
  if 0 ≤ index ∧ index < (tiles.length : ℤ) then tiles.set index.toNat tileType
  else tiles

/-- Exit half of the wrap-bounce frame advance in Game.update: squash
along the travel axis (the argument already carries the incremented
phase).  `sinpi t` abstracts Math.sin(t * Math.PI). -/
def applyExitSquash (sinpi : ℚ → ℚ) (s : BombSprite) : BombSprite :=
  let squash := 1 - sinpi s.wrapBouncePhase * (2/5)
  if s.wrapBounceDir = some Axis.x then
    { s with scaleX := squash, scaleY := 1 + (1 - squash) * (3/10) }
  else
    { s with scaleY := squash, scaleX := 1 + (1 - squash) * (3/10) }

/-- Entry half of the wrap-bounce frame advance in Game.update: teleport
to the new target on the first entry frame, then stretch back out. -/
def applyEntryStretch (sinpi : ℚ → ℚ) (s : BombSprite) : BombSprite :=
  let s1 :=
    if 1 ≤ s.wrapBouncePhase ∧ s.wrapBouncePhase < 27/25 then
      { s with x := s.targetX, y := s.targetY }
    else s
  let stretch := 1 + sinpi (s1.wrapBouncePhase - 1) * (3/10)
  if s1.wrapBounceDir = some Axis.x then
    { s1 with scaleX := stretch, scaleY := 1 - (stretch - 1) * (3/10) }
  else
    { s1 with scaleY := stretch, scaleX := 1 - (stretch - 1) * (3/10) }

/-- Wrap-bounce branch of the per-bomb frame advance in Game.update:
advance the phase by 0.08, drive scale from the phase, reset everything
to idle once the phase reaches 2, and keep the flying bounce clock going. -/
def wrapAdvance (sinpi : ℚ → ℚ) (s : BombSprite) : BombSprite :=
  let p := s.wrapBouncePhase + 2/25
  let s1 :=
    if p < 1 then applyExitSquash sinpi { s with wrapBouncePhase := p }
    else applyEntryStretch sinpi { s with wrapBouncePhase := p }
  let s2 :=
    if 2 ≤ s1.wrapBouncePhase then
      { s1 with wrapBouncePhase := 0, wrapBounceDir := none, scaleX := 1, scaleY := 1 }
    else s1
  if s2.data.isFlying = true then { s2 with bounceTime := s2.bounceTime + 16 } else s2

/-- Normal branch of the per-bomb frame advance in Game.update: ease the
position toward the target at a flag-dependent rate, with a sine bounce
offset while flying. -/
def normalAdvance (sinpi : ℚ → ℚ) (s : BombSprite) : BombSprite :=
  let lerpSpeed : ℚ := if s.data.isFlying = true then 7/20
    else if s.data.isMoving = true then 3/10 else 1/4
  let s1 := { s with x := lerp s.x s.targetX lerpSpeed }
  if s1.data.isFlying = true then
    let bt := s1.bounceTime + 16
    let bounceOffset := sinpi (((bt % 150 : ℤ) : ℚ) / 150) * (-20)
    { s1 with bounceTime := bt, y := lerp s1.y (s1.targetY + bounceOffset) lerpSpeed }
  else
    { s1 with bounceTime := 0, y := lerp s1.y (s1.targetY + 0) lerpSpeed }

/-- Per-bomb frame advance from Game.update: the wrap-bounce machine runs
while its phase is strictly between 0 and 2, otherwise normal easing. -/
def bombAnimStep (sinpi : ℚ → ℚ) (s : BombSprite) : BombSprite :=
  if 0 < s.wrapBouncePhase ∧ s.wrapBouncePhase < 2 then wrapAdvance sinpi s
  else normalAdvance sinpi s

/-- Game.updateCamera target computation: per axis, center horizontally
or top-align vertically when the world fits the viewport, otherwise
follow the local player's eased position clamped to the world bounds,
defaulting to 0 without a local sprite. -/
def cameraTarget (cw ch : ℚ) (myId : Option String) (pSprites : AMap PlayerSprite) : ℚ × ℚ :=
  let worldWidth := (GRID_WIDTH : ℚ) * TILE_SIZE
  let worldHeight := (GRID_HEIGHT : ℚ) * TILE_SIZE
  let localSprite :=
    match myId with
    | some sid => if sid = "" then none else lookupA pSprites sid
    | none => none
  let targetX :=
    if worldWidth ≤ cw then (cw - worldWidth) / 2
    else
      match localSprite with
      | some sp => min 0 (max (-worldWidth + cw) (-sp.x + cw / 2))
      | none => 0
  let targetY :=
    if worldHeight ≤ ch then 0
    else
      match localSprite with
      | some sp => min 0 (max (-worldHeight + ch) (-sp.y + ch / 2))
      | none => 0
  (targetX, targetY)

/-- Outbound intents dispatched through GameCallbacks. -/
inductive Intent where
  | move : ℤ → Intent
  | bomb : Intent
  | fling : Intent
  | start : Intent
  deriving DecidableEq

/-- The input-router fields of Game read by handleKeyDown and
processHeldKeys; `phase` is currentLobby?.state. -/
structure InputState where
  keysHeld : List String
  lastMoveTime : ℤ
  phase : Option String
  deriving DecidableEq

/-- JS Set.add on the held-key set: append only when absent. -/
def addKey (keys : List String) (code : String) : List String :=
  if code ∈ keys then keys else keys ++ [code]

/-- The key-code to movement-direction table of Game.handleKeyDown. -/
def dirOfCode (code : String) : Option ℤ :=
  if code = "ArrowUp" ∨ code = "KeyW" then some DIR_UP
  else if code = "ArrowDown" ∨ code = "KeyS" then some DIR_DOWN
  else if code = "ArrowLeft" ∨ code = "KeyA" then some DIR_LEFT
  else if code = "ArrowRight" ∨ code = "KeyD" then some DIR_RIGHT
  else none

/-- The held-key to movement-direction scan of Game.processHeldKeys. -/
def heldDir (keys : List String) : Option ℤ :=
  if "ArrowUp" ∈ keys ∨ "KeyW" ∈ keys then some DIR_UP
  else if "ArrowDown" ∈ keys ∨ "KeyS" ∈ keys then some DIR_DOWN
  else if "ArrowLeft" ∈ keys ∨ "KeyA" ∈ keys then some DIR_LEFT
  else if "ArrowRight" ∈ keys ∨ "KeyD" ∈ keys then some DIR_RIGHT
  else none

/-- Game.handleKeyDown: always record the key as held; outside the
playing phase only Shift+Enter in the waiting phase starts the game;
during play Space and E fire their intents, and if exactly one key is
held the movement intent fires immediately and resets the throttle. -/
def handleKeyDown (st : InputState) (code : String) (shift : Bool) (now : ℤ) :
    InputState × List Intent :=
  let st1 := { st with keysHeld := addKey st.keysHeld code }
  if st1.phase ≠ some phasePlaying then
    if code = "Enter" ∧ shift = true ∧ st1.phase = some phaseWaiting then
      (st1, [Intent.start])
    else (st1, [])
  else
    let acts : List Intent :=
      (if code = "Space" then [Intent.bomb] else []) ++
      (if code = "KeyE" then [Intent.fling] else [])
    if st1.keysHeld.length = 1 then
      match dirOfCode code with
      | some d => ({ st1 with lastMoveTime := now }, acts ++ [Intent.move d])
      | none => (st1, acts)
    else (st1, acts)

/-- Game.handleKeyUp: drop the key from the held set. -/
def handleKeyUp (st : InputState) (code : String) : InputState :=
  { st with keysHeld := st.keysHeld.filter (fun k => k ≠ code) }

/-- Game.processHeldKeys: during play, once the 120ms repeat delay has
elapsed, re-dispatch the movement intent of the highest-priority held
movement key and reset the throttle. -/
def processHeldKeys (st : InputState) (now : ℤ) : InputState × List Intent :=
  if st.phase ≠ some phasePlaying then (st, [])
  else if now - st.lastMoveTime < 120 then (st, [])
  else
    match heldDir st.keysHeld with
    | some d => ({ st with lastMoveTime := now }, [Intent.move d])
    | none => (st, [])

/-- Host stimuli feeding the input router: key events and frame ticks. -/
inductive InEvent where
  | down : String → Bool → ℤ → InEvent
  | up : String → InEvent
  | tick : ℤ → InEvent
  deriving DecidableEq

/-- Route one host stimulus, tagging each dispatched intent with the
stimulus time. -/
def inputStep (st : InputState) (e : InEvent) : InputState × List (ℤ × Intent) :=
  match e with
  | InEvent.down code shift t =>
    let r := handleKeyDown st code shift t
    (r.1, r.2.map (fun i => (t, i)))
  | InEvent.up code => (handleKeyUp st code, [])
  | InEvent.tick t =>
    let r := processHeldKeys st t
    (r.1, r.2.map (fun i => (t, i)))

/-- Route a whole stimulus trace, concatenating the dispatches. -/
def runInput : InputState → List InEvent → InputState × List (ℤ × Intent)
  | st, [] => (st, [])
  | st, e :: es =>
    let p := inputStep st e
    let r := runInput p.1 es
    (r.1, p.2 ++ r.2)

/-- The times of the movement intents among tagged dispatches. -/
def moveTimes (out : List (ℤ × Intent)) : List ℤ :=
  (out.filter (fun x => match x.2 with | Intent.move _ => true | _ => false)).map Prod.fst

/-- Reading of the throttle claim: all movement dispatches after the
first land in pairwise-distinct 120ms repeat windows anchored at the
first dispatch. -/
def atMostOnePerWindow (ts : List ℤ) : Prop :=
  match ts with
  | [] => True
  | t0 :: rest => List.Pairwise (fun a b => (a - t0) / 120 ≠ (b - t0) / 120) rest

/-- A trivial instantiation of the abstracted Math.sqrt / Math.sin
parameters, used when a concrete run does not depend on their values. -/
def qZero : ℚ → ℚ := fun _ => 0

/-- Concrete player snapshot entry used in concrete runs. -/
def pW : PlayerData :=
  { socketId := "me", name := "alice", gridX := 2, gridY := 3, alive := true,
    color := 0xff4444, stunnedUntil := 0 }

/-- The same player reported dead by a later snapshot. -/
def pDead : PlayerData :=
  { socketId := "me", name := "alice", gridX := 2, gridY := 3, alive := false,
    color := 0xff4444, stunnedUntil := 0 }

/-- Concrete bomb snapshot entry used in concrete runs. -/
def bW : BombData :=
  { id := "b1", ownerId := "me", gridX := 4, gridY := 5, timer := 1500,
    isMoving := false, isFlying := false }

/-- Concrete explosion snapshot entry used in concrete runs. -/
def eW : ExplosionData := { id := "x1", gridX := 6, gridY := 7, timer := 500 }

/-- Concrete game data used in concrete runs. -/
def gdW : GameData :=
  { tiles := List.replicate 285 0, bombs := [bW], explosions := [eW] }

/-- Concrete lobby snapshot used in concrete runs. -/
def lobbyW : Lobby :=
  { players := [pW], state := phasePlaying, mySocketId := some "me", gameData := some gdW }

/-- An initialized orchestrator state with no sprites yet. -/
def gsInit : GameState :=
  { inited := true, mySocketId := none, currentLobby := none, tiles := [],
    playerSprites := [], bombSprites := [], explosionSprites := [], shakeIntensity := 0 }

/-- A stale explosion sprite sitting at grid (1, 1), created at time 111. -/
def staleExplosion : ExplosionSprite :=
  { x := 60, y := 60, createdAt := 111, gridX := 1, gridY := 1 }

/-- Snapshot entry that reuses the stale sprite's id at a new cell. -/
def movedExplosionData : ExplosionData := { id := "x1", gridX := 7, gridY := 1, timer := 500 }

/-- Input-router state in the playing phase with nothing held. -/
def inputPlaying : InputState := { keysHeld := [], lastMoveTime := 0, phase := some phasePlaying }

/-- Host trace with OS auto-repeat: key-down for the same held arrow key
delivered at 0ms, 33ms and 66ms. -/
def autoRepeatTrace : List InEvent :=
  [InEvent.down "ArrowUp" false 0, InEvent.down "ArrowUp" false 33,
   InEvent.down "ArrowUp" false 66]

/-- Bomb snapshot entry at grid x = 0, already flying. -/
def bombAtLeftEdge : BombData :=
  { id := "b1", ownerId := "me", gridX := 0, gridY := 5, timer := 1200,
    isMoving := false, isFlying := true }

/-- An idle-wrap bomb sprite whose stored target is grid cell (0, 5). -/
def idleBombSprite : BombSprite := mkBombSprite bombAtLeftEdge

/-- Flying snapshot update that jumps the bomb to grid x = 18. -/
def flyJumpData : BombData :=
  { id := "b1", ownerId := "me", gridX := 18, gridY := 5, timer := 1200,
    isMoving := false, isFlying := true }

/-- Flying snapshot update that moves the bomb by a single tile. -/
def flyStepData : BombData :=
  { id := "b1", ownerId := "me", gridX := 1, gridY := 5, timer := 1200,
    isMoving := false, isFlying := true }

/-- A bomb sprite whose wrap-bounce machine has just been triggered. -/
def triggeredBomb : BombSprite :=
  { idleBombSprite with
    wrapBouncePhase := 1/100, wrapBounceDir := some Axis.x, data := flyJumpData }

/-- A local player sprite map for camera and shake runs. -/
def spriteMapW : AMap PlayerSprite := [("me", mkPlayerSprite pW)]

/-- Keys after Map.set: insert the key (as a set). -/
theorem keysA_setA {α : Type} (m : AMap α) (k : String) (v : α) :
    (keysA (setA m k v)).toFinset = insert k (keysA m).toFinset := by
  induction m with
  | nil => simp [setA, keysA]
  | cons kv rest ih =>
    obtain ⟨a, w⟩ := kv
    by_cases h : a = k
    · subst h
      simp [setA, keysA]
    · simp only [setA, if_neg h, keysA, List.map_cons, List.toFinset_cons]
      rw [keysA] at ih
      rw [ih, Finset.Insert.comm]
      rfl

/-- Map.get after Map.set. -/
theorem lookupA_setA {α : Type} (m : AMap α) (k : String) (v : α) (k' : String) :
    lookupA (setA m k v) k' = if k = k' then some v else lookupA m k' := by
  induction m with
  | nil => simp [setA, lookupA]
  | cons kv rest ih =>
    obtain ⟨a, w⟩ := kv
    by_cases h : a = k
    · subst h
      by_cases h' : a = k' <;> simp [setA, lookupA, h']
    · by_cases h' : a = k'
      · subst h'
        have hne : k ≠ a := fun hh => h hh.symm
        simp [setA, if_neg h, lookupA, hne]
      · simp [setA, if_neg h, lookupA, h', ih]

/-- Map.get misses exactly the keys outside the map. -/
theorem lookupA_eq_none_iff {α : Type} (m : AMap α) (k : String) :
    lookupA m k = none ↔ k ∉ keysA m := by
  induction m with
  | nil => simp [lookupA, keysA]
  | cons kv rest ih =>
    obtain ⟨a, w⟩ := kv
    by_cases h : a = k <;> simp [lookupA, keysA, h, ih, Ne.symm]

/-- Map.get after a filter whose predicate depends only on the key. -/
theorem lookupA_filter_key {α : Type} (m : AMap α) (q : String → Bool) (k : String) :
    lookupA (m.filter (fun kv => q kv.1)) k = if q k = true then lookupA m k else none := by
  induction m with
  | nil => simp [lookupA]
  | cons kv rest ih =>
    obtain ⟨a, w⟩ := kv
    by_cases h : a = k
    · subst h
      by_cases hq : q a = true <;> simp [List.filter_cons, hq, lookupA, ih]
    · by_cases hq : q a = true <;> simp [List.filter_cons, hq, lookupA, h, ih]

/-- A key that Map.get finds is among the keys. -/
theorem mem_keysA_of_lookupA {α : Type} {m : AMap α} {k : String} {v : α}
    (h : lookupA m k = some v) : k ∈ keysA m := by
  by_contra hk
  rw [← lookupA_eq_none_iff] at hk
  rw [h] at hk
  exact Option.noConfusion hk

/-- Keys after the add-or-update loop of syncPlayers: union with the
snapshot ids. -/
theorem keysA_foldl_playerStep (globalTime now : ℤ) :
    ∀ (ps : List PlayerData) (m : AMap PlayerSprite),
    (keysA (ps.foldl (playerStep globalTime now) m)).toFinset
      = (keysA m).toFinset ∪ (ps.map PlayerData.socketId).toFinset := by
  intro ps
  induction ps with
  | nil => intro m; simp
  | cons p ps ih =>
    intro m
    rw [List.foldl_cons, ih]
    have hstep : (keysA (playerStep globalTime now m p)).toFinset
        = insert p.socketId (keysA m).toFinset := by
      unfold playerStep
      cases lookupA m p.socketId <;> simp [keysA_setA]
    rw [hstep]
    simp [Finset.insert_union, Finset.union_insert]

/-- Keys after the add-or-update loop of syncBombs: union with the
snapshot ids. -/
theorem keysA_foldl_bombStep :
    ∀ (bs : List BombData) (m : AMap BombSprite),
    (keysA (bs.foldl bombStep m)).toFinset
      = (keysA m).toFinset ∪ (bs.map BombData.id).toFinset := by
  intro bs
  induction bs with
  | nil => intro m; simp
  | cons b bs ih =>
    intro m
    rw [List.foldl_cons, ih]
    have hstep : (keysA (bombStep m b)).toFinset = insert b.id (keysA m).toFinset := by
      unfold bombStep
      cases lookupA m b.id <;> simp [keysA_setA]
    rw [hstep]
    simp [Finset.insert_union, Finset.union_insert]

/-- Keys after the add-only loop of syncExplosions: union with the
snapshot ids. -/
theorem keysA_foldl_explosionStep (sq : ℚ → ℚ) (now : ℤ) (myId : Option String)
    (pSprites : AMap PlayerSprite) :
    ∀ (es : List ExplosionData) (acc : AMap ExplosionSprite × ℚ),
    (keysA (es.foldl (explosionStep sq now myId pSprites) acc).1).toFinset
      = (keysA acc.1).toFinset ∪ (es.map ExplosionData.id).toFinset := by
  intro es
  induction es with
  | nil => intro acc; simp
  | cons e es ih =>
    intro acc
    rw [List.foldl_cons, ih]
    have hstep : (keysA (explosionStep sq now myId pSprites acc e).1).toFinset
        = insert e.id (keysA acc.1).toFinset := by
      unfold explosionStep
      cases h : lookupA acc.1 e.id with
      | none => simp [keysA_setA]
      | some s =>
        have : e.id ∈ (keysA acc.1).toFinset := List.mem_toFinset.mpr (mem_keysA_of_lookupA h)
        simp [Finset.insert_eq_self.mpr this]
    rw [hstep]
    simp [Finset.insert_union, Finset.union_insert]

/-- The keys kept by the removal pass all come from the snapshot ids. -/
theorem keysA_filter_subset {α : Type} (m : AMap α) (ids : List String) :
    (keysA (m.filter (fun kv => ids.contains kv.1))).toFinset ⊆ ids.toFinset := by
  intro x hx
  rw [List.mem_toFinset] at hx
  rw [keysA, List.mem_map] at hx
  obtain ⟨kv, hkv, rfl⟩ := hx
  rw [List.mem_filter] at hkv
  rw [List.mem_toFinset]
  simpa using hkv.2

/-- Reconciliation of players leaves exactly the snapshot's socket ids. -/
theorem keysA_syncPlayers (globalTime now : ℤ) (m : AMap PlayerSprite) (ps : List PlayerData) :
    (keysA (syncPlayers globalTime now m ps)).toFinset = (ps.map PlayerData.socketId).toFinset := by
  unfold syncPlayers
  rw [keysA_foldl_playerStep]
  exact Finset.union_eq_right.mpr (keysA_filter_subset m (ps.map PlayerData.socketId))

/-- Reconciliation of bombs leaves exactly the snapshot's bomb ids. -/
theorem keysA_syncBombs (m : AMap BombSprite) (bs : List BombData) :
    (keysA (syncBombs m bs)).toFinset = (bs.map BombData.id).toFinset := by
  unfold syncBombs
  rw [keysA_foldl_bombStep]
  exact Finset.union_eq_right.mpr (keysA_filter_subset m (bs.map BombData.id))

/-- Reconciliation of explosions leaves exactly the snapshot's ids. -/
theorem keysA_syncExplosions (sq : ℚ → ℚ) (now : ℤ) (myId : Option String)
    (pSprites : AMap PlayerSprite) (m : AMap ExplosionSprite) (shake : ℚ)
    (es : List ExplosionData) :
    (keysA (syncExplosions sq now myId pSprites m shake es).1).toFinset
      = (es.map ExplosionData.id).toFinset := by
  unfold syncExplosions
  rw [keysA_foldl_explosionStep]
  exact Finset.union_eq_right.mpr (keysA_filter_subset m (es.map ExplosionData.id))

/-- C1. Reconciliation completeness: for every snapshot passed to
updateFromLobby after initialization, with its bomb and explosion lists
present, the id sets of the player, bomb and explosion sprite maps end
up exactly equal to the id sets of the snapshot's corresponding lists. -/
theorem c1_reconciliation_completeness (sq : ℚ → ℚ) (globalTime now : ℤ)
    (st : GameState) (lobby : Lobby) (gd : GameData)
    (hinit : st.inited = true) (hgd : lobby.gameData = some gd) :
    (keysA (updateFromLobby sq globalTime now st lobby).playerSprites).toFinset
      = (lobby.players.map PlayerData.socketId).toFinset ∧
    (keysA (updateFromLobby sq globalTime now st lobby).bombSprites).toFinset
      = (gd.bombs.map BombData.id).toFinset ∧
    (keysA (updateFromLobby sq globalTime now st lobby).explosionSprites).toFinset
      = (gd.explosions.map ExplosionData.id).toFinset := by
  unfold updateFromLobby
  rw [hinit, hgd]
  simp [keysA_syncPlayers, keysA_syncBombs, keysA_syncExplosions]

/-- C1 witness: a concrete initialized state and snapshot, with the
hypotheses discharged by rfl. -/
theorem c1_reconciliation_completeness_witness :
    (keysA (updateFromLobby qZero 0 0 gsInit lobbyW).playerSprites).toFinset
      = (lobbyW.players.map PlayerData.socketId).toFinset ∧
    (keysA (updateFromLobby qZero 0 0 gsInit lobbyW).bombSprites).toFinset
      = (gdW.bombs.map BombData.id).toFinset ∧
    (keysA (updateFromLobby qZero 0 0 gsInit lobbyW).explosionSprites).toFinset
      = (gdW.explosions.map ExplosionData.id).toFinset :=
  c1_reconciliation_completeness qZero 0 0 gsInit lobbyW gdW rfl rfl

/-- The add-only explosion loop never modifies an entry it can already
find. -/
theorem lookupA_foldl_explosionStep (sq : ℚ → ℚ) (now : ℤ) (myId : Option String)
    (pSprites : AMap PlayerSprite) :
    ∀ (es : List ExplosionData) (acc : AMap ExplosionSprite × ℚ) (k : String)
      (s : ExplosionSprite), lookupA acc.1 k = some s →
    lookupA (es.foldl (explosionStep sq now myId pSprites) acc).1 k = some s := by
  intro es
  induction es with
  | nil => intro acc k s h; simpa using h
  | cons e es ih =>
    intro acc k s h
    rw [List.foldl_cons]
    unfold explosionStep
    cases hl : lookupA acc.1 e.id with
    | some t => exact ih acc k s h
    | none =>
      have hne : e.id ≠ k := by
        intro he
        rw [he, h] at hl
        exact Option.noConfusion hl
      refine ih _ k s ?_
      rw [lookupA_setA, if_neg hne]
      exact h

/-- C2 counterexample: an explosion id that persists across snapshots
keeps its stale sprite untouched — reconciliation does not update the
grid coordinates of an existing explosion entity, unlike players/bombs. -/
theorem c2_counterexample :
    lookupA (syncExplosions qZero 999 none [] [("x1", staleExplosion)] 0
        [movedExplosionData]).1 "x1" = some staleExplosion ∧
    staleExplosion.gridX = 1 ∧ movedExplosionData.gridX = 7 :=
  ⟨rfl, rfl, rfl⟩

/-- C2 amended: removal of absent ids and creation of missing ids is
shared by all three presenters, and players and bombs with an existing
id get their authoritative fields and interpolation target recomputed —
but an explosion item whose id already owns an entity leaves that entity
entirely unchanged (explosions are never updated in place). -/
theorem c2_explosions_never_updated (sq : ℚ → ℚ) (globalTime now : ℤ)
    (myId : Option String) (pSprites : AMap PlayerSprite)
    (m : AMap ExplosionSprite) (shake : ℚ) (es : List ExplosionData)
    (k : String) (s : ExplosionSprite)
    (mb : AMap BombSprite) (sb : BombSprite) (b : BombData)
    (mp : AMap PlayerSprite) (sp : PlayerSprite) (p : PlayerData)
    (hs : lookupA m k = some s)
    (hk : (es.map ExplosionData.id).contains k = true)
    (hb : lookupA mb b.id = some sb)
    (hp : lookupA mp p.socketId = some sp) :
    lookupA (syncExplosions sq now myId pSprites m shake es).1 k = some s ∧
    lookupA (syncBombs mb [b]) b.id = some (updateBombS sb b) ∧
    lookupA (syncPlayers globalTime now mp [p]) p.socketId
      = some (updatePlayerS globalTime now sp p) := by
  refine ⟨?_, ?_, ?_⟩
  · unfold syncExplosions
    refine lookupA_foldl_explosionStep sq now myId pSprites es _ k s ?_
    rw [lookupA_filter_key, if_pos hk]
    exact hs
  · unfold syncBombs
    simp only [List.map_cons, List.map_nil, List.foldl_cons, List.foldl_nil]
    unfold bombStep
    have hf : lookupA (mb.filter (fun kv => [b.id].contains kv.1)) b.id = some sb := by
      rw [lookupA_filter_key]
      simp [hb]
    rw [hf]
    rw [lookupA_setA, if_pos rfl]
  · unfold syncPlayers
    simp only [List.map_cons, List.map_nil, List.foldl_cons, List.foldl_nil]
    unfold playerStep
    have hf : lookupA (mp.filter (fun kv => [p.socketId].contains kv.1)) p.socketId
        = some sp := by
      rw [lookupA_filter_key]
      simp [hp]
    rw [hf]
    rw [lookupA_setA, if_pos rfl]

/-- C2 amended witness: concrete stale explosion, bomb and player maps. -/
theorem c2_explosions_never_updated_witness :
    lookupA (syncExplosions qZero 999 none [] [("x1", staleExplosion)] 0
        [movedExplosionData]).1 "x1" = some staleExplosion ∧
    lookupA (syncBombs [("b1", mkBombSprite bW)] [flyJumpData]) flyJumpData.id
      = some (updateBombS (mkBombSprite bW) flyJumpData) ∧
    lookupA (syncPlayers 5 6 spriteMapW [pW]) pW.socketId
      = some (updatePlayerS 5 6 (mkPlayerSprite pW) pW) :=
  c2_explosions_never_updated qZero 5 6 none [] [("x1", staleExplosion)] 0
    [movedExplosionData] "x1" staleExplosion [("b1", mkBombSprite bW)]
    (mkBombSprite bW) flyJumpData spriteMapW (mkPlayerSprite pW) pW
    rfl (by decide) rfl rfl

set_option maxRecDepth 40000 in
/-- C3 counterexample: the coordinate (19, 0) lies outside the
19-column grid, yet updateTile writes through it — the flattened index
19 aliases to cell (0, 1), so the stored array changes. -/
theorem c3_counterexample :
    ¬ (0 ≤ (19 : ℤ) ∧ (19 : ℤ) < GRID_WIDTH) ∧
    updateTile (List.replicate 285 0) 19 0 2 ≠ List.replicate 285 0 ∧
    (updateTile (List.replicate 285 0) 19 0 2).get? 19 = some 2 := by
  refine ⟨by decide, ?_, by decide⟩
  intro h
  have h2 : (updateTile (List.replicate 285 0) 19 0 2).get? 19 = some 2 := by decide
  rw [h] at h2
  have h0 : (List.replicate 285 (0 : ℤ)).get? 19 = some 0 := by decide
  rw [h0] at h2
  exact absurd h2 (by decide)

/-- C3 amended: updateTile drops the write exactly when the flattened
row-major index gridY·GRID_WIDTH + gridX falls outside the stored
array, leaving every cell unchanged; any coordinate whose flattened
index is in range — including coordinates outside the grid rectangle —
writes to that flattened position. -/
theorem c3_update_tile_bounds (tiles : List ℤ) (gridX gridY tileType : ℤ)
    (h : gridY * GRID_WIDTH + gridX < 0 ∨ (tiles.length : ℤ) ≤ gridY * GRID_WIDTH + gridX) :
    updateTile tiles gridX gridY tileType = tiles := by
  unfold updateTile
  rw [if_neg]
  omega

/-- C3 amended witness: a negative flattened index is dropped. -/
theorem c3_update_tile_bounds_witness :
    updateTile (List.replicate 285 0) (-1) 0 2 = List.replicate 285 0 :=
  c3_update_tile_bounds (List.replicate 285 0) (-1) 0 2 (by decide)

/-- C5. Wrap-bounce trigger: from the idle wrap state, a flying update
whose new target differs from the stored target by more than 5 tile
widths on the x axis starts the machine (phase 0.01) with axis x, while
an update within 5 tile widths on both axes leaves the machine idle. -/
theorem c5_wrap_bounce_trigger (s : BombSprite) (d dStep : BombData)
    (hidle : s.wrapBouncePhase = 0)
    (hfly : d.isFlying = true) (hflyStep : dStep.isFlying = true) :
    (TILE_SIZE * 5 < |s.targetX - (gridToPixel d.gridX d.gridY).1| →
      (updateBombS s d).wrapBouncePhase = 1/100 ∧
      (updateBombS s d).wrapBounceDir = some Axis.x) ∧
    (|s.targetX - (gridToPixel dStep.gridX dStep.gridY).1| ≤ TILE_SIZE * 5 →
     |s.targetY - (gridToPixel dStep.gridX dStep.gridY).2| ≤ TILE_SIZE * 5 →
      (updateBombS s dStep).wrapBouncePhase = 0 ∧
      (updateBombS s dStep).wrapBounceDir = s.wrapBounceDir) := by
  constructor
  · intro hx
    simp only [updateBombS]
    rw [if_pos ⟨hfly, hidle⟩, if_pos hx]
    exact ⟨rfl, rfl⟩
  · intro hx hy
    simp only [updateBombS]
    rw [if_pos ⟨hflyStep, hidle⟩, if_neg (not_lt.mpr hx), if_neg (not_lt.mpr hy)]
    exact ⟨hidle, rfl⟩

/-- C5 witness: the grid x = 0 to x = 18 jump (720px > 200px) triggers
with axis x; the one-tile move (40px) does not. -/
theorem c5_wrap_bounce_trigger_witness :
    ((updateBombS idleBombSprite flyJumpData).wrapBouncePhase = 1/100 ∧
     (updateBombS idleBombSprite flyJumpData).wrapBounceDir = some Axis.x) ∧
    ((updateBombS idleBombSprite flyStepData).wrapBouncePhase = 0 ∧
     (updateBombS idleBombSprite flyStepData).wrapBounceDir = idleBombSprite.wrapBounceDir) := by
  have h := c5_wrap_bounce_trigger idleBombSprite flyJumpData flyStepData rfl rfl rfl
  refine ⟨h.1 ?_, h.2 ?_ ?_⟩
  · norm_num [idleBombSprite, mkBombSprite, bombAtLeftEdge, flyJumpData,
      gridToPixel, TILE_SIZE]
  · norm_num [idleBombSprite, mkBombSprite, bombAtLeftEdge, flyStepData,
      gridToPixel, TILE_SIZE]
  · norm_num [idleBombSprite, mkBombSprite, bombAtLeftEdge, flyStepData,
      gridToPixel, TILE_SIZE]

/-- A dead-to-dead update never touches the recorded death timestamp
and keeps the stored data dead. -/
theorem updatePlayerS_dead_dead (globalTime now : ℤ) (s : PlayerSprite) (d : PlayerData)
    (hs : s.data.alive = false) (hd : d.alive = false) :
    (updatePlayerS globalTime now s d).deathTime = s.deathTime ∧
    (updatePlayerS globalTime now s d).data.alive = false := by
  refine ⟨?_, hd⟩
  simp only [updatePlayerS]
  rw [if_neg]
  intro hj
  exact hj.2 hs

/-- Folding any run of dead updates preserves the death timestamp. -/
theorem deathTime_foldl_dead (updates : List (ℤ × ℤ × PlayerData)) :
    ∀ (s : PlayerSprite), s.data.alive = false →
    (∀ u ∈ updates, (u.2.2 : PlayerData).alive = false) →
    (updates.foldl (fun acc u => updatePlayerS u.1 u.2.1 acc u.2.2) s).deathTime
      = s.deathTime := by
  induction updates with
  | nil => intro s _ _; rfl
  | cons u us ih =>
    intro s hs hall
    rw [List.foldl_cons]
    have hu := updatePlayerS_dead_dead u.1 u.2.1 s u.2.2 hs (hall u (List.mem_cons_self u us))
    rw [ih _ hu.2 (fun v hv => hall v (List.mem_cons_of_mem u hv)), hu.1]

/-- C9. Idempotent death timestamp: observing alive = false on a sprite
whose stored data was alive records the timestamp of that update, and
any run of further updates that still carry alive = false leaves the
stored timestamp exactly at that first value. -/
theorem c9_death_timestamp_idempotent (globalTime now : ℤ) (s : PlayerSprite)
    (d0 : PlayerData) (updates : List (ℤ × ℤ × PlayerData))
    (halive : s.data.alive = true) (hdead : d0.alive = false)
    (hall : ∀ u ∈ updates, (u.2.2 : PlayerData).alive = false) :
    (updatePlayerS globalTime now s d0).deathTime = now ∧
    (updates.foldl (fun acc u => updatePlayerS u.1 u.2.1 acc u.2.2)
        (updatePlayerS globalTime now s d0)).deathTime = now := by
  have hfirst : (updatePlayerS globalTime now s d0).deathTime = now := by
    simp only [updatePlayerS]
    rw [if_pos ⟨hdead, by rw [halive]; exact fun h => Bool.noConfusion h⟩]
  refine ⟨hfirst, ?_⟩
  rw [deathTime_foldl_dead updates (updatePlayerS globalTime now s d0) hdead hall, hfirst]

/-- C9 witness: a live sprite observes alive = false at time 100, then
two further dead updates at later times keep deathTime = 100. -/
theorem c9_death_timestamp_idempotent_witness :
    (updatePlayerS 99 100 (mkPlayerSprite pW) pDead).deathTime = 100 ∧
    ([((200 : ℤ), (201 : ℤ), pDead), ((300 : ℤ), (301 : ℤ), pDead)].foldl
        (fun acc u => updatePlayerS u.1 u.2.1 acc u.2.2)
        (updatePlayerS 99 100 (mkPlayerSprite pW) pDead)).deathTime = 100 :=
  c9_death_timestamp_idempotent 99 100 (mkPlayerSprite pW) pDead
    [(200, 201, pDead), (300, 301, pDead)] rfl rfl (by decide)

/-- The player loop leaves keys foreign to the snapshot list untouched. -/
theorem lookupA_foldl_playerStep_ne (globalTime now : ℤ) :
    ∀ (ps : List PlayerData) (acc : AMap PlayerSprite) (k : String),
    (∀ q ∈ ps, q.socketId ≠ k) →
    lookupA (ps.foldl (playerStep globalTime now) acc) k = lookupA acc k := by
  intro ps
  induction ps with
  | nil => intro acc k _; rfl
  | cons q ps ih =>
    intro acc k hk
    rw [List.foldl_cons]
    rw [ih _ k (fun r hr => hk r (List.mem_cons_of_mem q hr))]
    have hq := hk q (List.mem_cons_self q ps)
    unfold playerStep
    cases lookupA acc q.socketId <;> rw [lookupA_setA, if_neg hq]

/-- A player id that appears for the first time ends up bound to the
sprite that addPlayer creates. -/
theorem lookupA_foldl_playerStep_new (globalTime now : ℤ) :
    ∀ (ps : List PlayerData) (acc : AMap PlayerSprite) (p : PlayerData),
    (ps.map PlayerData.socketId).Nodup → p ∈ ps →
    lookupA acc p.socketId = none →
    lookupA (ps.foldl (playerStep globalTime now) acc) p.socketId
      = some (mkPlayerSprite p) := by
  intro ps
  induction ps with
  | nil => intro acc p _ hp; exact absurd hp (List.not_mem_nil p)
  | cons q ps ih =>
    intro acc p hnd hp hnone
    rw [List.map_cons, List.nodup_cons] at hnd
    rw [List.foldl_cons]
    rcases List.mem_cons.mp hp with rfl | hp'
    · have hne : ∀ r ∈ ps, r.socketId ≠ p.socketId := by
        intro r hr he
        exact hnd.1 (he ▸ List.mem_map_of_mem PlayerData.socketId hr)
      rw [lookupA_foldl_playerStep_ne globalTime now ps _ p.socketId hne]
      unfold playerStep
      rw [hnone, lookupA_setA, if_pos rfl]
    · have hne : q.socketId ≠ p.socketId := by
        intro he
        exact hnd.1 (he ▸ List.mem_map_of_mem PlayerData.socketId hp')
      refine ih _ p hnd.2 hp' ?_
      unfold playerStep
      cases lookupA acc q.socketId <;> rw [lookupA_setA, if_neg hne] <;> exact hnone

/-- The bomb loop leaves keys foreign to the snapshot list untouched. -/
theorem lookupA_foldl_bombStep_ne :
    ∀ (bs : List BombData) (acc : AMap BombSprite) (k : String),
    (∀ q ∈ bs, q.id ≠ k) →
    lookupA (bs.foldl bombStep acc) k = lookupA acc k := by
  intro bs
  induction bs with
  | nil => intro acc k _; rfl
  | cons q bs ih =>
    intro acc k hk
    rw [List.foldl_cons]
    rw [ih _ k (fun r hr => hk r (List.mem_cons_of_mem q hr))]
    have hq := hk q (List.mem_cons_self q bs)
    unfold bombStep
    cases lookupA acc q.id <;> rw [lookupA_setA, if_neg hq]

/-- A bomb id that appears for the first time ends up bound to the
sprite that addBomb creates. -/
theorem lookupA_foldl_bombStep_new :
    ∀ (bs : List BombData) (acc : AMap BombSprite) (b : BombData),
    (bs.map BombData.id).Nodup → b ∈ bs →
    lookupA acc b.id = none →
    lookupA (bs.foldl bombStep acc) b.id = some (mkBombSprite b) := by
  intro bs
  induction bs with
  | nil => intro acc b _ hb; exact absurd hb (List.not_mem_nil b)
  | cons q bs ih =>
    intro acc b hnd hb hnone
    rw [List.map_cons, List.nodup_cons] at hnd
    rw [List.foldl_cons]
    rcases List.mem_cons.mp hb with rfl | hb'
    · have hne : ∀ r ∈ bs, r.id ≠ b.id := by
        intro r hr he
        exact hnd.1 (he ▸ List.mem_map_of_mem BombData.id hr)
      rw [lookupA_foldl_bombStep_ne bs _ b.id hne]
      unfold bombStep
      rw [hnone, lookupA_setA, if_pos rfl]
    · have hne : q.id ≠ b.id := by
        intro he
        exact hnd.1 (he ▸ List.mem_map_of_mem BombData.id hb')
      refine ih _ b hnd.2 hb' ?_
      unfold bombStep
      cases lookupA acc q.id <;> rw [lookupA_setA, if_neg hne] <;> exact hnone

/-- A key the map misses is still missed after the removal pass. -/
theorem lookupA_filter_of_none {α : Type} (m : AMap α) (q : String → Bool) (k : String)
    (h : lookupA m k = none) :
    lookupA (m.filter (fun kv => q kv.1)) k = none := by
  rw [lookupA_filter_key]
  split
  · exact h
  · rfl

/-- C10. First-appearance placement: a player or bomb id absent from the
sprite map but present in the snapshot (ids unique per snapshot) is
created by reconciliation exactly at the coordinate-mapped cell center
gridToPixel(gridX, gridY) = (gridX·TILE_SIZE + TILE_SIZE/2,
gridY·TILE_SIZE + TILE_SIZE/2), with the interpolation target equal to
the rendered position. -/
theorem c10_first_appearance (globalTime now : ℤ)
    (m : AMap PlayerSprite) (ps : List PlayerData) (p : PlayerData)
    (mb : AMap BombSprite) (bs : List BombData) (b : BombData)
    (hnd : (ps.map PlayerData.socketId).Nodup) (hp : p ∈ ps)
    (hm : lookupA m p.socketId = none)
    (hndb : (bs.map BombData.id).Nodup) (hb : b ∈ bs)
    (hmb : lookupA mb b.id = none) :
    lookupA (syncPlayers globalTime now m ps) p.socketId = some (mkPlayerSprite p) ∧
    (mkPlayerSprite p).x = (p.gridX : ℚ) * TILE_SIZE + TILE_SIZE / 2 ∧
    (mkPlayerSprite p).y = (p.gridY : ℚ) * TILE_SIZE + TILE_SIZE / 2 ∧
    (mkPlayerSprite p).targetX = (mkPlayerSprite p).x ∧
    (mkPlayerSprite p).targetY = (mkPlayerSprite p).y ∧
    lookupA (syncBombs mb bs) b.id = some (mkBombSprite b) ∧
    (mkBombSprite b).x = (b.gridX : ℚ) * TILE_SIZE + TILE_SIZE / 2 ∧
    (mkBombSprite b).y = (b.gridY : ℚ) * TILE_SIZE + TILE_SIZE / 2 ∧
    (mkBombSprite b).targetX = (mkBombSprite b).x ∧
    (mkBombSprite b).targetY = (mkBombSprite b).y ∧
    gridToPixel p.gridX p.gridY
      = ((p.gridX : ℚ) * TILE_SIZE + TILE_SIZE / 2,
         (p.gridY : ℚ) * TILE_SIZE + TILE_SIZE / 2) := by
  refine ⟨?_, rfl, rfl, rfl, rfl, ?_, rfl, rfl, rfl, rfl, rfl⟩
  · unfold syncPlayers
    exact lookupA_foldl_playerStep_new globalTime now ps _ p hnd hp
      (lookupA_filter_of_none m _ p.socketId hm)
  · unfold syncBombs
    exact lookupA_foldl_bombStep_new bs _ b hndb hb
      (lookupA_filter_of_none mb _ b.id hmb)

/-- C10 witness: first appearance of a player and a bomb in empty maps. -/
theorem c10_first_appearance_witness :
    lookupA (syncPlayers 0 0 [] [pW]) pW.socketId = some (mkPlayerSprite pW) ∧
    (mkPlayerSprite pW).x = (pW.gridX : ℚ) * TILE_SIZE + TILE_SIZE / 2 ∧
    (mkPlayerSprite pW).y = (pW.gridY : ℚ) * TILE_SIZE + TILE_SIZE / 2 ∧
    (mkPlayerSprite pW).targetX = (mkPlayerSprite pW).x ∧
    (mkPlayerSprite pW).targetY = (mkPlayerSprite pW).y ∧
    lookupA (syncBombs [] [bW]) bW.id = some (mkBombSprite bW) ∧
    (mkBombSprite bW).x = (bW.gridX : ℚ) * TILE_SIZE + TILE_SIZE / 2 ∧
    (mkBombSprite bW).y = (bW.gridY : ℚ) * TILE_SIZE + TILE_SIZE / 2 ∧
    (mkBombSprite bW).targetX = (mkBombSprite bW).x ∧
    (mkBombSprite bW).targetY = (mkBombSprite bW).y ∧
    gridToPixel pW.gridX pW.gridY
      = ((pW.gridX : ℚ) * TILE_SIZE + TILE_SIZE / 2,
         (pW.gridY : ℚ) * TILE_SIZE + TILE_SIZE / 2) :=
  c10_first_appearance 0 0 [] [pW] pW [] [bW] bW
    (by simp) (List.mem_singleton.mpr rfl) rfl
    (by simp) (List.mem_singleton.mpr rfl) rfl

/-- The shake trigger is exactly a max against the cutoff intensity. -/
theorem triggerShakeAtDistance_eq_max (cur d : ℚ) (hcur : 0 ≤ cur) :
    triggerShakeAtDistance cur d = max cur (cutoffIntensity d) := by
  unfold triggerShakeAtDistance cutoffIntensity
  split_ifs
  · rfl
  · rw [max_eq_left hcur]

/-- C8. Screen shake is non-additive with a distance cutoff: the trigger
raises the current intensity to max(current, new) where the new impulse
weakly decreases with the grid distance and vanishes at or beyond 6
cells; two impulses of intensities 5 and 8 (distances 3.5 and 2) leave
the intensity at 8, not 13. -/
theorem c8_shake_non_additive (sq : ℚ → ℚ) (sid : String)
    (pSprites : AMap PlayerSprite) (cur : ℚ) (ex ey : ℤ) (sp : PlayerSprite)
    (hsid : sid ≠ "") (hsp : lookupA pSprites sid = some sp) (hcur : 0 ≤ cur) :
    triggerExplosionShake sq (some sid) pSprites cur ex ey
      = max cur (cutoffIntensity (sq
          (((sp.data.gridX - ex : ℤ) : ℚ) * ((sp.data.gridX - ex : ℤ) : ℚ)
            + ((sp.data.gridY - ey : ℤ) : ℚ) * ((sp.data.gridY - ey : ℤ) : ℚ)))) ∧
    (∀ d1 d2 : ℚ, 0 ≤ d1 → d1 ≤ d2 → cutoffIntensity d2 ≤ cutoffIntensity d1) ∧
    (∀ d : ℚ, 6 ≤ d → cutoffIntensity d = 0) ∧
    triggerShakeAtDistance (triggerShakeAtDistance 0 2) (7/2) = 8 ∧
    triggerShakeAtDistance (triggerShakeAtDistance 0 (7/2)) 2 = 8 ∧
    (8 : ℚ) ≠ 5 + 8 := by
  refine ⟨?_, ?_, ?_, ?_, ?_, by norm_num⟩
  · simp only [triggerExplosionShake, hsp, if_neg hsid]
    exact triggerShakeAtDistance_eq_max cur _ hcur
  · intro d1 d2 h0 h12
    unfold cutoffIntensity
    split_ifs with h1 h2 h2 <;> nlinarith
  · intro d hd
    unfold cutoffIntensity
    rw [if_neg (not_lt.mpr hd)]
  · have h1 : triggerShakeAtDistance 0 2 = 8 := by
      unfold triggerShakeAtDistance
      rw [if_pos (by norm_num)]
      rw [show ((1 - (2 : ℚ) / 6) * 12) = 8 by norm_num]
      rw [max_eq_right (by norm_num)]
    rw [h1]
    unfold triggerShakeAtDistance
    rw [if_pos (by norm_num)]
    rw [show ((1 - (7 : ℚ) / 2 / 6) * 12) = 5 by norm_num]
    rw [max_eq_left (by norm_num)]
  · have h1 : triggerShakeAtDistance 0 (7/2) = 5 := by
      unfold triggerShakeAtDistance
      rw [if_pos (by norm_num)]
      rw [show ((1 - (7 : ℚ) / 2 / 6) * 12) = 5 by norm_num]
      rw [max_eq_right (by norm_num)]
    rw [h1]
    unfold triggerShakeAtDistance
    rw [if_pos (by norm_num)]
    rw [show ((1 - (2 : ℚ) / 6) * 12) = 8 by norm_num]
    rw [max_eq_right (by norm_num)]

/-- C8 witness: local player "me" with a concrete sprite map. -/
theorem c8_shake_non_additive_witness :
    triggerExplosionShake qZero (some "me") spriteMapW 0 4 3
      = max 0 (cutoffIntensity (qZero
          ((((mkPlayerSprite pW).data.gridX - 4 : ℤ) : ℚ)
              * (((mkPlayerSprite pW).data.gridX - 4 : ℤ) : ℚ)
            + (((mkPlayerSprite pW).data.gridY - 3 : ℤ) : ℚ)
              * (((mkPlayerSprite pW).data.gridY - 3 : ℤ) : ℚ)))) ∧
    (∀ d1 d2 : ℚ, 0 ≤ d1 → d1 ≤ d2 → cutoffIntensity d2 ≤ cutoffIntensity d1) ∧
    (∀ d : ℚ, 6 ≤ d → cutoffIntensity d = 0) ∧
    triggerShakeAtDistance (triggerShakeAtDistance 0 2) (7/2) = 8 ∧
    triggerShakeAtDistance (triggerShakeAtDistance 0 (7/2)) 2 = 8 ∧
    (8 : ℚ) ≠ 5 + 8 :=
  c8_shake_non_additive qZero "me" spriteMapW 0 4 3 (mkPlayerSprite pW)
    (by decide) rfl le_rfl

/-- Clamping with min 0 after max m lands in the interval from m to 0. -/
theorem min_max_clamp (m t : ℚ) (hm : m ≤ 0) :
    m ≤ min 0 (max m t) ∧ min 0 (max m t) ≤ 0 :=
  ⟨le_min hm (le_max_left m t), min_le_left 0 _⟩

/-- C7. Camera target bounds and axis asymmetry: when the world fits the
viewport the horizontal target centers the world while the vertical
target pins to 0; otherwise the target is clamped into the interval
from -(worldSize - viewportSize) to 0 on that axis for any player
position, and it defaults to 0 when there is no local player sprite. -/
theorem c7_camera_bounds (cw ch : ℚ) (myId : Option String) (pSprites : AMap PlayerSprite) :
    ((GRID_WIDTH : ℚ) * TILE_SIZE ≤ cw →
      (cameraTarget cw ch myId pSprites).1 = (cw - (GRID_WIDTH : ℚ) * TILE_SIZE) / 2) ∧
    ((GRID_HEIGHT : ℚ) * TILE_SIZE ≤ ch → (cameraTarget cw ch myId pSprites).2 = 0) ∧
    (cw < (GRID_WIDTH : ℚ) * TILE_SIZE →
      -((GRID_WIDTH : ℚ) * TILE_SIZE - cw) ≤ (cameraTarget cw ch myId pSprites).1 ∧
      (cameraTarget cw ch myId pSprites).1 ≤ 0) ∧
    (ch < (GRID_HEIGHT : ℚ) * TILE_SIZE →
      -((GRID_HEIGHT : ℚ) * TILE_SIZE - ch) ≤ (cameraTarget cw ch myId pSprites).2 ∧
      (cameraTarget cw ch myId pSprites).2 ≤ 0) ∧
    (myId = none → cw < (GRID_WIDTH : ℚ) * TILE_SIZE → ch < (GRID_HEIGHT : ℚ) * TILE_SIZE →
      cameraTarget cw ch myId pSprites = (0, 0)) ∧
    (∀ sid, myId = some sid → sid ≠ "" → lookupA pSprites sid = none →
      cw < (GRID_WIDTH : ℚ) * TILE_SIZE → ch < (GRID_HEIGHT : ℚ) * TILE_SIZE →
      cameraTarget cw ch myId pSprites = (0, 0)) := by
  have hx1 : ∀ _ : (GRID_WIDTH : ℚ) * TILE_SIZE ≤ cw,
      (cameraTarget cw ch myId pSprites).1 = (cw - (GRID_WIDTH : ℚ) * TILE_SIZE) / 2 := by
    intro h
    simp only [cameraTarget, if_pos h]
  have hy1 : ∀ _ : (GRID_HEIGHT : ℚ) * TILE_SIZE ≤ ch,
      (cameraTarget cw ch myId pSprites).2 = 0 := by
    intro h
    simp only [cameraTarget, if_pos h]
  refine ⟨hx1, hy1, ?_, ?_, ?_, ?_⟩
  · intro h
    simp only [cameraTarget, if_neg (not_le.mpr h)]
    rcases myId with _ | sid
    · constructor
      · simp
        linarith
      · simp
    · by_cases hsid : sid = ""
      · simp only [hsid, if_pos rfl]
        constructor
        · simp
          linarith
        · simp
      · simp only [if_neg hsid]
        cases hl : lookupA pSprites sid with
        | none =>
          constructor
          · simp
            linarith
          · simp
        | some sp =>
          have hc := min_max_clamp (-((GRID_WIDTH : ℚ) * TILE_SIZE) + cw) (-sp.x + cw / 2)
            (by linarith)
          exact ⟨by linarith [hc.1], hc.2⟩
  · intro h
    simp only [cameraTarget, if_neg (not_le.mpr h)]
    rcases myId with _ | sid
    · constructor
      · simp
        linarith
      · simp
    · by_cases hsid : sid = ""
      · simp only [hsid, if_pos rfl]
        constructor
        · simp
          linarith
        · simp
      · simp only [if_neg hsid]
        cases hl : lookupA pSprites sid with
        | none =>
          constructor
          · simp
            linarith
          · simp
        | some sp =>
          have hc := min_max_clamp (-((GRID_HEIGHT : ℚ) * TILE_SIZE) + ch) (-sp.y + ch / 2)
            (by linarith)
          exact ⟨by linarith [hc.1], hc.2⟩
  · rintro rfl hw hh
    simp only [cameraTarget, if_neg (not_le.mpr hw), if_neg (not_le.mpr hh)]
  · rintro sid rfl hsid hl hw hh
    simp only [cameraTarget, if_neg (not_le.mpr hw), if_neg (not_le.mpr hh), if_neg hsid, hl]

/-- C7 witness: a 400x500 viewport against the 760x600 world stays
within bounds; an 800x700 viewport centers horizontally and pins the
vertical target to 0. -/
theorem c7_camera_bounds_witness :
    (-((GRID_WIDTH : ℚ) * TILE_SIZE - 400) ≤ (cameraTarget 400 500 (some "me") spriteMapW).1 ∧
      (cameraTarget 400 500 (some "me") spriteMapW).1 ≤ 0) ∧
    (-((GRID_HEIGHT : ℚ) * TILE_SIZE - 500) ≤ (cameraTarget 400 500 (some "me") spriteMapW).2 ∧
      (cameraTarget 400 500 (some "me") spriteMapW).2 ≤ 0) ∧
    (cameraTarget 800 700 (some "me") spriteMapW).1 = (800 - (GRID_WIDTH : ℚ) * TILE_SIZE) / 2 ∧
    (cameraTarget 800 700 (some "me") spriteMapW).2 = 0 := by
  have h1 := c7_camera_bounds 400 500 (some "me") spriteMapW
  have h2 := c7_camera_bounds 800 700 (some "me") spriteMapW
  refine ⟨h1.2.2.1 ?_, h1.2.2.2.1 ?_, h2.1 ?_, h2.2.1 ?_⟩
  · norm_num [GRID_WIDTH, TILE_SIZE]
  · norm_num [GRID_HEIGHT, TILE_SIZE]
  · norm_num [GRID_WIDTH, TILE_SIZE]
  · norm_num [GRID_HEIGHT, TILE_SIZE]

/-- With the wrap machine idle, a frame advance leaves scale, phase
and axis tag untouched (only position and bounce clock move). -/
theorem bombAnimStep_idle (sinpi : ℚ → ℚ) (s : BombSprite) (h : s.wrapBouncePhase = 0) :
    (bombAnimStep sinpi s).scaleX = s.scaleX ∧
    (bombAnimStep sinpi s).scaleY = s.scaleY ∧
    (bombAnimStep sinpi s).wrapBouncePhase = 0 ∧
    (bombAnimStep sinpi s).wrapBounceDir = s.wrapBounceDir := by
  simp only [bombAnimStep, normalAdvance, h, lt_irrefl, false_and, if_false]
  split_ifs <;> simp [h]

/-- The frame whose advance carries the phase to 2 or beyond resets the
sprite: identity scale, phase 0, no axis tag. -/
theorem wrap_reset_step (sinpi : ℚ → ℚ) (s : BombSprite)
    (h0 : 0 < s.wrapBouncePhase) (h2 : s.wrapBouncePhase < 2)
    (hge : 2 ≤ s.wrapBouncePhase + 2/25) :
    (bombAnimStep sinpi s).scaleX = 1 ∧
    (bombAnimStep sinpi s).scaleY = 1 ∧
    (bombAnimStep sinpi s).wrapBouncePhase = 0 ∧
    (bombAnimStep sinpi s).wrapBounceDir = none := by
  have hp1 : ¬ (s.wrapBouncePhase + 2/25 < 1) := by linarith
  have htel : ¬ (1 ≤ s.wrapBouncePhase + 2/25 ∧ s.wrapBouncePhase + 2/25 < 27/25) := by
    rintro ⟨ha, hb⟩
    linarith
  simp only [bombAnimStep, if_pos (And.intro h0 h2), wrapAdvance, applyEntryStretch,
    applyExitSquash, if_neg hp1, if_neg htel]
  split_ifs <;> simp

/-- The exit squash only writes scale, never phase or axis tag. -/
theorem applyExitSquash_state (sinpi : ℚ → ℚ) (t : BombSprite) :
    (applyExitSquash sinpi t).wrapBouncePhase = t.wrapBouncePhase ∧
    (applyExitSquash sinpi t).wrapBounceDir = t.wrapBounceDir := by
  unfold applyExitSquash
  split_ifs <;> exact ⟨rfl, rfl⟩

/-- The entry stretch only writes position and scale, never phase or
axis tag. -/
theorem applyEntryStretch_state (sinpi : ℚ → ℚ) (t : BombSprite) :
    (applyEntryStretch sinpi t).wrapBouncePhase = t.wrapBouncePhase ∧
    (applyEntryStretch sinpi t).wrapBounceDir = t.wrapBounceDir := by
  unfold applyEntryStretch
  split_ifs <;>
    constructor <;>
      simp [apply_ite BombSprite.wrapBouncePhase, apply_ite BombSprite.wrapBounceDir]

/-- A mid-machine frame that does not yet reach phase 2 just advances
the phase by 0.08 and keeps the axis tag. -/
theorem wrap_step_state (sinpi : ℚ → ℚ) (s : BombSprite)
    (h0 : 0 < s.wrapBouncePhase) (h2 : s.wrapBouncePhase < 2)
    (hlt : s.wrapBouncePhase + 2/25 < 2) :
    (bombAnimStep sinpi s).wrapBouncePhase = s.wrapBouncePhase + 2/25 ∧
    (bombAnimStep sinpi s).wrapBounceDir = s.wrapBounceDir := by
  have he := applyExitSquash_state sinpi
    { s with wrapBouncePhase := s.wrapBouncePhase + 2/25 }
  have hn := applyEntryStretch_state sinpi
    { s with wrapBouncePhase := s.wrapBouncePhase + 2/25 }
  simp only [bombAnimStep, if_pos (And.intro h0 h2), wrapAdvance]
  by_cases h1 : s.wrapBouncePhase + 2/25 < 1
  · simp only [if_pos h1, he.1, he.2]
    simp only [if_neg (not_le.mpr hlt)]
    split_ifs <;>
      constructor <;>
        simp [he.1, he.2, apply_ite BombSprite.wrapBouncePhase,
          apply_ite BombSprite.wrapBounceDir]
  · simp only [if_neg h1, hn.1, hn.2]
    simp only [if_neg (not_le.mpr hlt)]
    split_ifs <;>
      constructor <;>
        simp [hn.1, hn.2, apply_ite BombSprite.wrapBouncePhase,
          apply_ite BombSprite.wrapBounceDir]

/-- Once reset, any further frames keep identity scale, phase 0 and no
axis tag. -/
theorem bombAnimStep_iterate_idle (sinpi : ℚ → ℚ) :
    ∀ (n : ℕ) (s : BombSprite),
    s.wrapBouncePhase = 0 → s.scaleX = 1 → s.scaleY = 1 → s.wrapBounceDir = none →
    ((bombAnimStep sinpi)^[n] s).scaleX = 1 ∧
    ((bombAnimStep sinpi)^[n] s).scaleY = 1 ∧
    ((bombAnimStep sinpi)^[n] s).wrapBouncePhase = 0 ∧
    ((bombAnimStep sinpi)^[n] s).wrapBounceDir = none := by
  intro n
  induction n with
  | zero => intro s h0 hx hy hd; simpa using ⟨hx, hy, h0, hd⟩
  | succ n ih =>
    intro s h0 hx hy hd
    rw [Function.iterate_succ_apply]
    have hstep := bombAnimStep_idle sinpi s h0
    exact ih _ hstep.2.2.1 (hstep.1.trans hx) (hstep.2.1.trans hy) (hstep.2.2.2.trans hd)

/-- C6. Wrap-bounce completion: from any triggered wrap state (phase
strictly between 0 and 2), after enough per-frame advances to carry the
phase to 2 or beyond — regardless of how many frames that takes — the
bomb sprite's scale is exactly (1, 1), the phase is reset to 0 and the
axis tag is reset to none. -/
theorem c6_wrap_bounce_completion (sinpi : ℚ → ℚ) (n : ℕ) (s : BombSprite)
    (h0 : 0 < s.wrapBouncePhase) (h2 : s.wrapBouncePhase < 2)
    (hn : 2 ≤ s.wrapBouncePhase + (2/25) * n) :
    ((bombAnimStep sinpi)^[n] s).scaleX = 1 ∧
    ((bombAnimStep sinpi)^[n] s).scaleY = 1 ∧
    ((bombAnimStep sinpi)^[n] s).wrapBouncePhase = 0 ∧
    ((bombAnimStep sinpi)^[n] s).wrapBounceDir = none := by
  induction n generalizing s with
  | zero =>
    exfalso
    simp at hn
    linarith
  | succ n ih =>
    rw [Function.iterate_succ_apply]
    by_cases hc : 2 ≤ s.wrapBouncePhase + 2/25
    · have hr := wrap_reset_step sinpi s h0 h2 hc
      exact bombAnimStep_iterate_idle sinpi n _ hr.2.2.1 hr.1 hr.2.1 hr.2.2.2
    · push_neg at hc
      have hs := wrap_step_state sinpi s h0 h2 hc
      refine ih _ ?_ ?_ ?_
      · rw [hs.1]
        linarith
      · rw [hs.1]
        exact hc
      · rw [hs.1]
        push_cast at hn ⊢
        linarith

/-- C6 witness: the freshly triggered phase 0.01 reaches 2.01 after 25
frames and comes out reset with identity scale. -/
theorem c6_wrap_bounce_completion_witness :
    ((bombAnimStep qZero)^[25] triggeredBomb).scaleX = 1 ∧
    ((bombAnimStep qZero)^[25] triggeredBomb).scaleY = 1 ∧
    ((bombAnimStep qZero)^[25] triggeredBomb).wrapBouncePhase = 0 ∧
    ((bombAnimStep qZero)^[25] triggeredBomb).wrapBounceDir = none :=
  c6_wrap_bounce_completion qZero 25 triggeredBomb
    (by norm_num [triggeredBomb])
    (by norm_num [triggeredBomb])
    (by push_cast; norm_num [triggeredBomb])

/-- C4 counterexample: with OS auto-repeat the host delivers key-down
events for the held ArrowUp at 0ms, 33ms and 66ms while playing; each
passes the single-held-key check and dispatches immediately, so three
movement intents land in the same 120ms window — more than the one
additional dispatch the claim allows. -/
theorem c4_counterexample :
    (runInput inputPlaying autoRepeatTrace).2
      = [(0, Intent.move DIR_UP), (33, Intent.move DIR_UP), (66, Intent.move DIR_UP)] ∧
    ¬ atMostOnePerWindow (moveTimes (runInput inputPlaying autoRepeatTrace).2) := by
  refine ⟨by decide, ?_⟩
  have hmt : moveTimes (runInput inputPlaying autoRepeatTrace).2 = [0, 33, 66] := by decide
  rw [hmt]
  intro h
  simp only [atMostOnePerWindow] at h
  have h2 := List.pairwise_cons.mp h
  exact (h2.1 66 (by simp)) (by decide)

/-- With a single held key, the held-key scan agrees with the key-down
direction table. -/
theorem heldDir_singleton (k : String) : heldDir [k] = dirOfCode k := by
  simp [heldDir, dirOfCode, List.mem_singleton, eq_comm]

/-- Frame ticks against a single held movement key dispatch only
movement intents for it, each at least 120ms after the previous
dispatch recorded in lastMoveTime. -/
theorem runInput_ticks_chain (k : String) (d : ℤ) (hk : heldDir [k] = some d) :
    ∀ (ts : List ℤ) (st : InputState),
    st.keysHeld = [k] → st.phase = some phasePlaying →
    List.Chain (fun a b => a + 120 ≤ b) st.lastMoveTime
      ((runInput st (ts.map InEvent.tick)).2.map Prod.fst) ∧
    (∀ x ∈ (runInput st (ts.map InEvent.tick)).2, x.2 = Intent.move d) := by
  intro ts
  induction ts with
  | nil =>
    intro st h1 h2
    exact ⟨List.Chain.nil, by simp [runInput]⟩
  | cons t ts ih =>
    intro st h1 h2
    by_cases hthr : t - st.lastMoveTime < 120
    · have hstep : inputStep st (InEvent.tick t) = (st, []) := by
        simp [inputStep, processHeldKeys, h2, hthr]
      simp only [List.map_cons, runInput, hstep, List.nil_append]
      exact ih st h1 h2
    · have hstep : inputStep st (InEvent.tick t)
          = ({ st with lastMoveTime := t }, [(t, Intent.move d)]) := by
        simp [inputStep, processHeldKeys, h2, hthr, h1, hk]
      simp only [List.map_cons, runInput, hstep]
      have hr := ih { st with lastMoveTime := t } (by simp [h1]) (by simp [h2])
      constructor
      · simp only [List.cons_append, List.nil_append, List.map_cons]
        exact List.Chain.cons (by omega) hr.1
      · intro x hx
        simp only [List.cons_append, List.nil_append, List.mem_cons] at hx
        rcases hx with rfl | hx2
        · rfl
        · exact hr.2 x hx2

/-- C4 amended: when the host delivers exactly one key-down per press
(no auto-repeat), holding a single movement key during the playing
phase dispatches exactly one movement intent immediately on the
key-down, and per-frame ticks at any rate re-dispatch it no more than
once per 120ms window (consecutive dispatches at least 120ms apart);
a repeated key-down event for the held key, however, bypasses the
throttle (see the counterexample). -/
theorem c4_throttle_amended (k : String) (d : ℤ) (t0 lmt0 : ℤ) (ts : List ℤ)
    (hk : dirOfCode k = some d) :
    ((runInput { keysHeld := [], lastMoveTime := lmt0, phase := some phasePlaying }
        (InEvent.down k false t0 :: ts.map InEvent.tick)).2).head?
      = some (t0, Intent.move d) ∧
    List.Chain' (fun a b => a + 120 ≤ b)
      (((runInput { keysHeld := [], lastMoveTime := lmt0, phase := some phasePlaying }
        (InEvent.down k false t0 :: ts.map InEvent.tick)).2).map Prod.fst) ∧
    (∀ x ∈ (runInput { keysHeld := [], lastMoveTime := lmt0, phase := some phasePlaying }
        (InEvent.down k false t0 :: ts.map InEvent.tick)).2, x.2 = Intent.move d) := by
  have hs : k ≠ "Space" := by
    intro he
    rw [he] at hk
    simp [dirOfCode] at hk
  have he : k ≠ "KeyE" := by
    intro hke
    rw [hke] at hk
    simp [dirOfCode] at hk
  have hstep : inputStep { keysHeld := [], lastMoveTime := lmt0, phase := some phasePlaying }
      (InEvent.down k false t0)
      = ({ keysHeld := [k], lastMoveTime := t0, phase := some phasePlaying },
         [(t0, Intent.move d)]) := by
    simp [inputStep, handleKeyDown, addKey, hs, he, hk]
  have hchain := runInput_ticks_chain k d ((heldDir_singleton k).trans hk) ts
    { keysHeld := [k], lastMoveTime := t0, phase := some phasePlaying } rfl rfl
  simp only [runInput, hstep, List.cons_append, List.nil_append]
  refine ⟨rfl, ?_, ?_⟩
  · simp only [List.map_cons]
    exact hchain.1
  · intro x hx
    simp only [List.mem_cons] at hx
    rcases hx with rfl | hx2
    · rfl
    · exact hchain.2 x hx2

/-- C4 amended witness: ArrowUp pressed at 1000ms then ticks at 1050ms
(suppressed) and 1130ms (dispatched). -/
theorem c4_throttle_amended_witness :
    ((runInput { keysHeld := [], lastMoveTime := 0, phase := some phasePlaying }
        (InEvent.down "ArrowUp" false 1000 :: [(1050 : ℤ), 1130].map InEvent.tick)).2).head?
      = some (1000, Intent.move DIR_UP) ∧
    List.Chain' (fun a b => a + 120 ≤ b)
      (((runInput { keysHeld := [], lastMoveTime := 0, phase := some phasePlaying }
        (InEvent.down "ArrowUp" false 1000 :: [(1050 : ℤ), 1130].map InEvent.tick)).2).map Prod.fst) ∧
    (∀ x ∈ (runInput { keysHeld := [], lastMoveTime := 0, phase := some phasePlaying }
        (InEvent.down "ArrowUp" false 1000 :: [(1050 : ℤ), 1130].map InEvent.tick)).2,
      x.2 = Intent.move DIR_UP) :=
  c4_throttle_amended "ArrowUp" DIR_UP 1000 0 [1050, 1130] (by decide)
